import Mathlib

/-!
Verification of the testflinger overprovision-and-cancel orchestrator
(`deploy_with_testflinger.py`).

The development shallowly embeds the program: external command invocations
become explicit environment values (`CmdResult`), the mutex-guarded
cancelled-jobs set becomes an explicitly threaded `Finset String`, and the
per-job monitor loop becomes a recursion over the list of output lines.
Python string operations (`strip`, `split`, substring containment) are
re-implemented as structurally recursive functions over `List Char` so that
all definitions evaluate by kernel reduction.
-/

namespace DeployTF

/- ## Python string primitives -/

/-- Whitespace characters removed by Python `str.strip()` (ASCII subset). -/
def isWS (c : Char) : Bool :=
  c = ' ' || c = '\t' || c = '\n' || c = '\r'

/-- Strip leading and trailing whitespace from a character list. -/
def trimChars (s : List Char) : List Char :=
  ((s.dropWhile isWS).reverse.dropWhile isWS).reverse

/-- Python `str.strip()`. -/
def pyStrip (s : String) : String :=
  ⟨trimChars s.data⟩

/-- `isPrefixL pat s` holds when `pat` is a prefix of `s`. -/
def isPrefixL : List Char → List Char → Bool
  | [], _ => true
  | _ :: _, [] => false
  | p :: ps, c :: cs => p = c && isPrefixL ps cs

/-- `containsL pat s`: `pat` occurs as a contiguous substring of `s`
(Python `pat in s`). -/
def containsL (pat : List Char) : List Char → Bool
  | [] => isPrefixL pat []
  | c :: cs => isPrefixL pat (c :: cs) || containsL pat cs

/-- Python substring containment `pat in s`. -/
def containsSub (s pat : String) : Bool :=
  containsL pat.data s.data

/-- Python `str.split(sep)` for a one-character separator: keeps empty
segments, always returns at least one segment. -/
def splitChar (sep : Char) : List Char → List (List Char)
  | [] => [[]]
  | c :: cs =>
    if c = sep then [] :: splitChar sep cs
    else
      match splitChar sep cs with
      | [] => [[c]]
      | w :: ws => (c :: w) :: ws

/-- Python negative index `l[-2]`: the second-to-last element, if any. -/
def secondToLast {α : Type _} : List α → Option α
  | [] => none
  | [_] => none
  | [a, _] => some a
  | _ :: b :: c :: rest => secondToLast (b :: c :: rest)

/- ## Marker strings used by the program -/

/-- Status-output marker: job completed. -/
def completedMarker : String := "completed"

/-- Status-output marker: job cancelled. -/
def cancelledMarker : String := "cancelled"

/-- Error text from a cancel command on an already terminal job. -/
def alreadyCancelledMarker : String :=
  "Invalid job ID specified or the job is already completed/cancelled"

/-- Poll-output marker: provisioning phase started. -/
def provisionMarker : String := "Starting testflinger provision phase on"

/-- Poll-output marker: endpoint available. -/
def connectMarker : String := "You can now connect to ubuntu@"

/-- Status marker checked during the verification pass. -/
def reserveMarker : String := "reserve"

/-- Agent state retained by the selector. -/
def waitingState : String := "waiting"

/-- Streak type that negates the streak count. -/
def failType : String := "fail"

/- ## Job client -/

/-- Outcome of one external `testflinger-cli` invocation:
normal output, non-zero exit with captured output, or timeout. -/
inductive CmdResult where
  | ok (out : String)
  | err (out : String)
  | timeout
  deriving DecidableEq, Repr

/-- `true` when the invocation produced normal output. -/
def CmdResult.isOk : CmdResult → Bool
  | .ok _ => true
  | _ => false

/-- Classification of a `cancel` invocation by `call_testflinger`:
success, `JobAlreadyCancelledError` (non-zero exit whose output contains the
already-cancelled phrase), or a plain `TestflingerError`. -/
inductive CancelOutcome where
  | success
  | alreadyTerminal
  | failure
  deriving DecidableEq, Repr

/-- How `call_testflinger` classifies the result of a `cancel` command. -/
def classifyCancel : CmdResult → CancelOutcome
  | .ok _ => .success
  | .err out =>
    if containsSub out alreadyCancelledMarker then .alreadyTerminal else .failure
  | .timeout => .failure

/-- `is_job_running`: issues a status query; `false` when the output contains
a completion or cancellation marker, or when the query itself fails. -/
def is_job_running (status : CmdResult) : Bool :=
  match status with
  | .ok out => !(containsSub out completedMarker || containsSub out cancelledMarker)
  | .err _ => false
  | .timeout => false

/-- The external responses one `safe_cancel_job` call may consume: the result
of its fresh status query and the result of the cancel command (if issued). -/
structure CancelEnv where
  status : CmdResult
  cancel : CmdResult
  deriving DecidableEq, Repr

/-- Observable effect of one `safe_cancel_job` call: the returned boolean,
the cancelled-jobs set afterwards, and whether the status / cancel commands
were actually issued. -/
structure CancelResult where
  returned : Bool
  set : Finset String
  issuedStatus : Bool
  issuedCancel : Bool
  deriving DecidableEq

/-- `safe_cancel_job`, executed under the single job-state lock.
Embeds lines 187-222 of the source. -/
def safe_cancel_job (s : Finset String) (id : String) (env : CancelEnv) :
    CancelResult :=
  if id ∈ s then ⟨false, s, false, false⟩
  else if is_job_running env.status = false then ⟨false, insert id s, true, false⟩
  else
    match classifyCancel env.cancel with
    | .success => ⟨true, insert id s, true, true⟩
    | .alreadyTerminal => ⟨false, insert id s, true, true⟩
    | .failure => ⟨false, s, true, true⟩

/-- A sequence of `safe_cancel_job` calls on the same identifier, threading
the cancelled-jobs set; returns the per-call observable effects. -/
def cancelRuns (id : String) : Finset String → List CancelEnv → List CancelResult
  | _, [] => []
  | s, env :: rest =>
    let r := safe_cancel_job s id env
    r :: cancelRuns id r.set rest

/-- Modelled from the spec: the behaviour §4.1 prescribes for `safeCancel`
(already marked → `false` with no external call; fresh liveness query says
not running → mark and `false`; else attempt the cancel — success → mark and
`true`; already-terminal → mark and `false`; other failure → leave unmarked
and `false`). -/
def safeCancel_spec (s : Finset String) (id : String) (env : CancelEnv) :
    CancelResult :=
  if id ∈ s then
    ⟨false, s, false, false⟩
  else
    if is_job_running env.status = false then
      ⟨false, insert id s, true, false⟩
    else
      match classifyCancel env.cancel with
      | .success => ⟨true, insert id s, true, true⟩
      | .alreadyTerminal => ⟨false, insert id s, true, true⟩
      | .failure => ⟨false, s, true, true⟩

/- ## Subjob monitor -/

/-- The per-job Result Record put onto the shared queue
(`ret_val = {"ip": ..., "job_id": ..., "name": ...}`). -/
structure RetVal where
  ip : String
  job_id : String
  name : String
  deriving DecidableEq, Repr

/-- Agent name parsed from a provision-phase line: Python
`output.split(" ")[-2]`, `none` on `IndexError`. -/
def parsePhaseName (output : String) : Option String :=
  (secondToLast (splitChar ' ' output.data)).map (fun l => ⟨l⟩)

/-- Endpoint parsed from a connect line: Python `output.split("@")[-1]`. -/
def parseConnectIp (output : String) : String :=
  ⟨(splitChar '@' output.data).getLastD []⟩

/-- The provision-phase update on one output line: when the line contains
the phase marker, record the parsed agent name (keeping the old name when
parsing fails with `IndexError`). -/
def applyPhase (ret : RetVal) (output : String) : RetVal :=
  if containsSub output provisionMarker then
    match parsePhaseName output with
    | some nm => { ret with name := nm }
    | none => ret
  else ret

/-- The monitor's read loop over the job's output lines (lines 424-455 of the
source): strip each line, skip empty lines, record the agent name on a
provision-phase line, record the endpoint and stop reading on a connect line.
Returns the final record and the lines left unread. -/
def monitorLines (ret : RetVal) : List String → RetVal × List String
  | [] => (ret, [])
  | line :: rest =>
    let output := pyStrip line
    if output = ⟨[]⟩ then monitorLines ret rest
    else
      let ret1 := applyPhase ret output
      if containsSub output connectMarker then
        ({ ret1 with ip := parseConnectIp output }, rest)
      else monitorLines ret1 rest

/-- `monitor_subjob` restricted to its line-processing behaviour: the record
starts as `{"ip": "", "job_id": subjob, "name": ""}`. -/
def monitor_subjob (subjob : String) (lines : List String) :
    RetVal × List String :=
  monitorLines ⟨⟨[]⟩, subjob, ⟨[]⟩⟩ lines

/- ## Orchestrator completion loop -/

/-- The orchestrator's tally update for one completed monitor: a non-empty
endpoint increments the success count. -/
def countStep (r : RetVal) (c : Nat) : Nat :=
  if r.ip = ⟨[]⟩ then c else c + 1

/-- The jobs whose cancellation token the threshold-reached sweep sets: every
monitored job other than the one that just completed whose token is not
already set (lines 543-549 of the source). -/
def massCancelTargets (subjobs : List String) (tokens : String → Bool)
    (trig : String) : List String :=
  subjobs.filter (fun j => !(j = trig : Bool) && !(tokens j))

/-- The `as_completed` loop of `monitor_subjobs` (lines 513-557): results are
consumed in completion order; a record with a non-empty endpoint increments
the tally; the moment the tally reaches the threshold the sweep signals
cancellation and the loop breaks. Returns the final tally and, when the
threshold was reached, the triggering job together with the list of jobs
whose tokens the sweep set. -/
def monitorLoop (threshold : Nat) (subjobs : List String)
    (tokens : String → Bool) :
    List RetVal → Nat → Nat × Option (String × List String)
  | [], count => (count, none)
  | r :: rest, count =>
    let count1 := countStep r count
    if threshold ≤ count1 then
      (count1, some (r.job_id, massCancelTargets subjobs tokens r.job_id))
    else monitorLoop threshold subjobs tokens rest count1

/- ## Agent selector -/

/-- One entry of the agent inventory snapshot. -/
structure AgentEntry where
  name : String
  state : String
  queues : List String
  provision_streak_count : Option Int
  provision_streak_type : Option String
  deriving DecidableEq, Repr

/-- The signed streak computed per agent (lines 278-290): the raw count,
negated when the streak type is the failure type, `0` when the count is
absent (`KeyError`). -/
def signedStreak (e : AgentEntry) : Int :=
  match e.provision_streak_count with
  | none => 0
  | some c => if e.provision_streak_type = some failType then -c else c

/-- An agent retained by the selector: name and signed streak. -/
structure Agent where
  name : String
  streak : Int
  deriving DecidableEq, Repr

/-- Descending-streak ordering used by the Python stable sort
(`key=streak, reverse=True`). -/
def streakGE (a b : Agent) : Prop := b.streak ≤ a.streak

instance : DecidableRel streakGE := fun a b =>
  inferInstanceAs (Decidable (b.streak ≤ a.streak))

instance : IsTotal Agent streakGE := ⟨fun a b => le_total b.streak a.streak⟩

instance : IsTrans Agent streakGE := ⟨fun _ _ _ h1 h2 => le_trans h2 h1⟩

/-- The filtered waiting agents, in inventory order: queue membership
intersects the target servers and the state is `waiting`. -/
def filteredAgents (data : List AgentEntry) (servers : List String) :
    List Agent :=
  (data.filter (fun e =>
      (servers.any (fun srv => e.queues.contains srv)) &&
        (e.state = waitingState : Bool))).map
    (fun e => ⟨e.name, signedStreak e⟩)

/-- The ranking step of `get_available_agents` (lines 292-312): stable sort
descending by streak, partition into positive and non-positive streaks,
shuffle only the positive group, concatenate positive before non-positive.
The shuffle is passed in as a function standing for `random.shuffle`. -/
def rankAgents (shuffle : List Agent → List Agent) (agents : List Agent) :
    List Agent :=
  let sortedAgents := List.insertionSort streakGE agents
  let pos := sortedAgents.filter (fun a => decide (0 < a.streak))
  let nonpos := sortedAgents.filter (fun a => decide (a.streak ≤ 0))
  shuffle pos ++ nonpos

/-- `get_available_agents`: `[]` when the inventory fetch fails, otherwise
the ranked names of the filtered waiting agents. -/
def get_available_agents (shuffle : List Agent → List Agent)
    (agentData : Option (List AgentEntry)) (servers : List String) :
    List String :=
  match agentData with
  | none => []
  | some data => (rankAgents shuffle (filteredAgents data servers)).map
      (fun a => a.name)

/- ## Verification pass -/

/-- Observable outcome of `verify_results`: the retained results, the final
cancelled-jobs set, the job ids status-queried, and the job ids on which a
cancel was attempted via `safe_cancel_job`. -/
structure VerifyState where
  valid : List RetVal
  cancelled : Finset String
  queried : List String
  cancelAttempts : List String
  deriving DecidableEq

/-- `verify_results` (lines 612-642): for each record with a non-empty job
id, issue a fresh status query; when the query succeeds and the output lacks
the reserve marker, attempt `safe_cancel_job` and drop the record; when the
output contains the marker, retain the record; when the query itself fails,
drop the record without cancelling. `stE` gives each job's status response,
`cE` the responses consumed by an ensuing `safe_cancel_job`. -/
def verify_results (stE : String → CmdResult) (cE : String → CancelEnv) :
    List RetVal → Finset String → VerifyState
  | [], s => ⟨[], s, [], []⟩
  | r :: rest, s =>
    if r.job_id = ⟨[]⟩ then verify_results stE cE rest s
    else
      match stE r.job_id with
      | .ok o =>
        if containsSub o reserveMarker then
          let out := verify_results stE cE rest s
          { out with valid := r :: out.valid, queried := r.job_id :: out.queried }
        else
          let c := safe_cancel_job s r.job_id (cE r.job_id)
          let out := verify_results stE cE rest c.set
          { out with queried := r.job_id :: out.queried,
                     cancelAttempts := r.job_id :: out.cancelAttempts }
      | .err _ =>
        let out := verify_results stE cE rest s
        { out with queried := r.job_id :: out.queried }
      | .timeout =>
        let out := verify_results stE cE rest s
        { out with queried := r.job_id :: out.queried }

/- ## Top-level run -/

/-- Filesystem-affecting actions `run` performs, in order. -/
inductive RunEvent where
  | deleteYamlFiles : RunEvent
  | generateYaml : String → RunEvent
  | submitFile : String → RunEvent
  | createCancelScript : RunEvent
  deriving DecidableEq, Repr

/-- The shortfall sweep at the end of monitoring: cancel every submitted job
not yet in the cancelled set (lines 688-690). -/
def cancelAll (cE : String → CancelEnv) :
    Finset String → List String → Finset String
  | s, [] => s
  | s, id :: rest =>
    if id ∈ s then cancelAll cE s rest
    else cancelAll cE (safe_cancel_job s id (cE id)).set rest

/-- External responses and nondeterministic outcomes consumed by one `run`. -/
structure RunEnv where
  serversRead : Option (List String)
  agentData : Option (List AgentEntry)
  shuffle : List Agent → List Agent
  templateOk : String → Bool
  submitResult : String → Option String
  monitorRecords : List RetVal
  drainedResults : List RetVal
  postMonitorCancelled : Finset String
  shortfallCancel : String → CancelEnv
  verifyStatus : String → CmdResult
  verifyCancel : String → CancelEnv
  agentLimit : Nat
  completionThreshold : Nat

/-- Result of `run`: the exit code, the filesystem actions performed, and
the verified results printed on success. -/
structure RunOut where
  code : Nat
  events : List RunEvent
  valid : List RetVal
  deriving DecidableEq, Repr

/-- `run` (lines 644-714): read servers, rank agents, bail out with code 1
when fewer ranked agents than the agent limit, otherwise delete old files,
generate one description per selected agent, submit, monitor, on shortfall
cancel the rest and fail, on success verify and report. -/
def run (env : RunEnv) : RunOut :=
  match env.serversRead with
  | none => ⟨1, [], []⟩
  | some servers =>
    let ranked := get_available_agents env.shuffle env.agentData servers
    let agents := ranked.take env.agentLimit
    if agents.length < env.agentLimit then ⟨1, [], []⟩
    else
      let files := (agents.filter env.templateOk).map
        (fun a => ⟨("testflinger-").data ++ a.data ++ (".yaml").data⟩)
      let evs := RunEvent.deleteYamlFiles ::
        (agents.map RunEvent.generateYaml ++ files.map RunEvent.submitFile)
      let jobIds := files.filterMap env.submitResult
      if jobIds = [] then ⟨1, evs, []⟩
      else
        let evs := evs ++ [RunEvent.createCancelScript]
        let completionCount :=
          (monitorLoop env.completionThreshold jobIds (fun _ => false)
            env.monitorRecords 0).1
        if completionCount < env.completionThreshold then
          let _ := cancelAll env.shortfallCancel env.postMonitorCancelled jobIds
          ⟨1, evs, []⟩
        else
          let vs := verify_results env.verifyStatus env.verifyCancel
            env.drainedResults env.postMonitorCancelled
          ⟨0, evs, vs.valid⟩

/-- The status query of the verification pass succeeded and its output
contains the reserve marker. -/
def okReserve (stE : String → CmdResult) (r : RetVal) : Bool :=
  match stE r.job_id with
  | .ok o => containsSub o reserveMarker
  | .err _ => false
  | .timeout => false

/-- The status query of the verification pass succeeded and its output lacks
the reserve marker. -/
def okNotReserve (stE : String → CmdResult) (r : RetVal) : Bool :=
  match stE r.job_id with
  | .ok o => !containsSub o reserveMarker
  | .err _ => false
  | .timeout => false

/-- A concrete run environment with one ranked agent and an agent limit of
two, used to witness C9. -/
def c9Env : RunEnv :=
  ⟨some [("s1")], some [⟨("a1"), ("waiting"), [("s1")], some 1, none⟩], id,
    fun _ => true, fun _ => none, [], [], ∅,
    fun _ => ⟨CmdResult.timeout, CmdResult.timeout⟩,
    fun _ => CmdResult.timeout,
    fun _ => ⟨CmdResult.timeout, CmdResult.timeout⟩, 2, 1⟩

/- ## Helper lemmas about `safe_cancel_job` -/

lemma safe_cancel_of_mem {s : Finset String} {id : String} (env : CancelEnv)
    (h : id ∈ s) : safe_cancel_job s id env = ⟨false, s, false, false⟩ := by
  simp [safe_cancel_job, h]

lemma safe_cancel_mem_set {s : Finset String} {id : String} {env : CancelEnv}
    (h : id ∈ s) : id ∈ (safe_cancel_job s id env).set := by
  rw [safe_cancel_of_mem env h]; exact h

lemma safe_cancel_returned_mem {s : Finset String} {id : String}
    {env : CancelEnv} (h : (safe_cancel_job s id env).returned = true) :
    id ∈ (safe_cancel_job s id env).set := by
  by_cases hm : id ∈ s
  · rw [safe_cancel_of_mem env hm] at h; cases h
  · unfold safe_cancel_job at h ⊢
    simp only [hm, if_false] at h ⊢
    by_cases hr : is_job_running env.status = false
    · simp [hr] at h
    · simp only [hr, if_false] at h ⊢
      cases hc : classifyCancel env.cancel
      · simp only [hc]; exact Finset.mem_insert_self id s
      · simp only [hc]; exact Finset.mem_insert_self id s
      · rw [hc] at h; cases h

lemma cancelRuns_all_false {id : String} :
    ∀ (envs : List CancelEnv) (s : Finset String), id ∈ s →
      ∀ r ∈ cancelRuns id s envs, r.returned = false ∧ r.issuedCancel = false := by
  intro envs
  induction envs with
  | nil => intro s _ r hr; cases hr
  | cons env rest ih =>
    intro s hs r hr
    rw [cancelRuns] at hr
    rcases List.mem_cons.mp hr with h | h
    · subst h; rw [safe_cancel_of_mem env hs]; exact ⟨rfl, rfl⟩
    · exact ih _ (safe_cancel_mem_set hs) r h

lemma cancelRuns_count_zero {id : String} (envs : List CancelEnv)
    (s : Finset String) (hs : id ∈ s) :
    (cancelRuns id s envs).countP (fun r => r.returned) = 0 := by
  rw [List.countP_eq_zero]
  intro r hr
  have := (cancelRuns_all_false envs s hs r hr).1
  simp [this]

/- ## Sanity checks on the string primitives -/

example : containsSub ("the job is completed now") completedMarker = true := by
  decide

example : containsSub ("still going") completedMarker = false := by decide

example : pyStrip ("  a b  ") = ("a b") := by decide

example :
    parsePhaseName ("Starting testflinger provision phase on X now") =
      some ("X") := by decide

example :
    parseConnectIp ("You can now connect to ubuntu@10.0.0.5") =
      ("10.0.0.5") := by decide

/- ## C1: at most one true across any call sequence -/

/-- C1. For every job identifier and every sequence of `safe_cancel_job`
calls on it (serialized by the single lock, threading the cancelled-jobs
set), at most one call returns `true`; and once the identifier is in the
cancelled-jobs set, every call returns `false` and issues no cancel
command. -/
theorem safe_cancel_at_most_one_true (id : String) (s : Finset String)
    (envs : List CancelEnv) :
    (cancelRuns id s envs).countP (fun r => r.returned) ≤ 1 ∧
      (id ∈ s → ∀ r ∈ cancelRuns id s envs,
        r.returned = false ∧ r.issuedCancel = false) := by
  refine ⟨?_, fun hs => cancelRuns_all_false envs s hs⟩
  induction envs generalizing s with
  | nil => simp [cancelRuns]
  | cons env rest ih =>
    rw [cancelRuns, List.countP_cons]
    by_cases hret : (safe_cancel_job s id env).returned = true
    · have hmem := safe_cancel_returned_mem hret
      rw [cancelRuns_count_zero rest _ hmem]
      simp [hret]
    · have : (safe_cancel_job s id env).returned = false := by
        cases h : (safe_cancel_job s id env).returned
        · rfl
        · exact absurd h hret
      simp only [this]
      simpa using ih (safe_cancel_job s id env).set

/-- Witness for C1 at a concrete input: one successful cancel followed by a
retry on the same identifier yields at most one `true`, and with the
identifier already in the set the call is a no-op that issues no cancel. -/
theorem safe_cancel_at_most_one_true_witness :
    ((cancelRuns ("job-1") ∅
        [⟨CmdResult.ok ("queued"), CmdResult.ok ("ok")⟩,
         ⟨CmdResult.ok ("queued"), CmdResult.ok ("ok")⟩]).countP
      (fun r => r.returned) ≤ 1) ∧
    ((safe_cancel_job {("job-1")} ("job-1")
        ⟨CmdResult.ok ("queued"), CmdResult.ok ("ok")⟩).returned = false ∧
      (safe_cancel_job {("job-1")} ("job-1")
        ⟨CmdResult.ok ("queued"), CmdResult.ok ("ok")⟩).issuedCancel = false) := by
  refine ⟨(safe_cancel_at_most_one_true ("job-1") ∅
    [⟨CmdResult.ok ("queued"), CmdResult.ok ("ok")⟩,
     ⟨CmdResult.ok ("queued"), CmdResult.ok ("ok")⟩]).1, ?_⟩
  exact (safe_cancel_at_most_one_true ("job-1") {("job-1")}
    [⟨CmdResult.ok ("queued"), CmdResult.ok ("ok")⟩]).2
    (by decide)
    (safe_cancel_job {("job-1")} ("job-1")
      ⟨CmdResult.ok ("queued"), CmdResult.ok ("ok")⟩)
    (by decide)

/- ## C3: safe_cancel_job refines the spec's case analysis -/

/-- C3. `safe_cancel_job`, holding the single lock, behaves exactly as the
spec's case analysis: already cancelled → `false` with no external call;
fresh liveness query says not running → mark and `false`; else attempt the
cancel — success → mark and `true`; already-terminal error → mark and
`false`; any other failure → leave unmarked and `false`. -/
theorem safe_cancel_refines_spec (s : Finset String) (id : String)
    (env : CancelEnv) : safe_cancel_job s id env = safeCancel_spec s id env := by
  rfl

/- ## C8: the signed streak -/

/-- C8. The signed streak of an inventory entry is the raw count when the
streak type is the positive one, the negated count when the streak type is
the failure type, and `0` when the streak count is absent from the entry. -/
theorem signed_streak_cases (e : AgentEntry) :
    (e.provision_streak_count = none → signedStreak e = 0) ∧
      (∀ c : Int, e.provision_streak_count = some c →
        (e.provision_streak_type = some failType → signedStreak e = -c) ∧
          (e.provision_streak_type ≠ some failType → signedStreak e = c)) := by
  constructor
  · intro h; simp [signedStreak, h]
  · intro c hc
    constructor
    · intro ht; simp [signedStreak, hc, ht]
    · intro ht; simp [signedStreak, hc, ht]

/-- Witness for C8 at concrete entries: a positive-type entry keeps its
count, a fail-type entry negates it, and an entry without streak data gets
`0`. -/
theorem signed_streak_cases_witness :
    signedStreak ⟨("a1"), ("waiting"), [], some 3, some ("positive")⟩ = 3 ∧
      signedStreak ⟨("a2"), ("waiting"), [], some 3, some ("fail")⟩ = -3 ∧
        signedStreak ⟨("a3"), ("waiting"), [], none, none⟩ = 0 := by
  refine ⟨?_, ?_, ?_⟩
  · exact ((signed_streak_cases
      ⟨("a1"), ("waiting"), [], some 3, some ("positive")⟩).2 3 rfl).2
      (by decide)
  · exact ((signed_streak_cases
      ⟨("a2"), ("waiting"), [], some 3, some ("fail")⟩).2 3 rfl).1 rfl
  · exact (signed_streak_cases
      ⟨("a3"), ("waiting"), [], none, none⟩).1 rfl

/- ## C4: round-trip through the monitor's line parser -/

lemma applyPhase_ip (ret : RetVal) (output : String) :
    (applyPhase ret output).ip = ret.ip := by
  unfold applyPhase
  split
  · split <;> rfl
  · rfl

/-- C4. A monitored job whose output stream produces a provision-phase line
naming agent `X` and then a connect line for `10.0.0.5` yields the Result
Record `{name: X, ip: 10.0.0.5}`, and reading stops at the connect line
(every later line is left unread). -/
theorem monitor_roundtrip (id u v : String) (rest : List String)
    (hu1 : containsSub (pyStrip u) provisionMarker = true)
    (hu2 : parsePhaseName (pyStrip u) = some ("X"))
    (hu3 : containsSub (pyStrip u) connectMarker = false)
    (hv1 : containsSub (pyStrip v) connectMarker = true)
    (hv2 : parseConnectIp (pyStrip v) = ("10.0.0.5"))
    (hv3 : containsSub (pyStrip v) provisionMarker = false) :
    monitor_subjob id (u :: v :: rest) = (⟨("10.0.0.5"), id, ("X")⟩, rest) := by
  have hu0 : ¬(pyStrip u = ⟨[]⟩) := by
    intro he; rw [he] at hu1; revert hu1; decide
  have hv0 : ¬(pyStrip v = ⟨[]⟩) := by
    intro he; rw [he] at hv1; revert hv1; decide
  rw [monitor_subjob, monitorLines]
  simp only [if_neg hu0, applyPhase, hu1, if_true, hu2, hu3]
  rw [monitorLines]
  simp only [if_neg hv0, applyPhase, hv1, hv2, hv3, if_true]
  rfl

/-- Witness for C4 at a concrete output stream. -/
theorem monitor_roundtrip_witness :
    monitor_subjob ("job-1")
        [("Starting testflinger provision phase on X now"),
         ("You can now connect to ubuntu@10.0.0.5"),
         ("later line")] =
      (⟨("10.0.0.5"), ("job-1"), ("X")⟩, [("later line")]) := by
  exact monitor_roundtrip ("job-1")
    ("Starting testflinger provision phase on X now")
    ("You can now connect to ubuntu@10.0.0.5") [("later line")]
    (by decide) (by decide) (by decide) (by decide) (by decide) (by decide)

/- ## C7: no connect line means empty endpoint and no tally increment -/

lemma monitorLines_ip_unchanged (lines : List String)
    (h : ∀ l ∈ lines, containsSub (pyStrip l) connectMarker = false) :
    ∀ ret : RetVal, (monitorLines ret lines).1.ip = ret.ip := by
  induction lines with
  | nil => intro ret; rfl
  | cons l rest ih =>
    intro ret
    have hl := h l (List.mem_cons_self l rest)
    have hrest : ∀ x ∈ rest, containsSub (pyStrip x) connectMarker = false :=
      fun x hx => h x (List.mem_cons_of_mem l hx)
    rw [monitorLines]
    by_cases h0 : pyStrip l = ⟨[]⟩
    · rw [if_pos h0]; exact ih hrest ret
    · rw [if_neg h0]
      simp only [hl, Bool.false_eq_true, if_false]
      rw [ih hrest (applyPhase ret (pyStrip l)), applyPhase_ip]

/-- C7. A monitored job whose output stream ends without producing a connect
line yields a Result Record with an empty endpoint, and in the orchestrator
that record leaves the success tally used against the completion threshold
unchanged. -/
theorem no_connect_empty_endpoint (id : String) (lines : List String)
    (h : ∀ l ∈ lines, containsSub (pyStrip l) connectMarker = false) :
    (monitor_subjob id lines).1.ip = ⟨[]⟩ ∧
      ∀ c : Nat, countStep (monitor_subjob id lines).1 c = c := by
  have hip : (monitor_subjob id lines).1.ip = ⟨[]⟩ :=
    monitorLines_ip_unchanged lines h ⟨⟨[]⟩, id, ⟨[]⟩⟩
  exact ⟨hip, fun c => by rw [countStep, if_pos hip]⟩

/-- Witness for C7 at a concrete stream without a connect line. -/
theorem no_connect_empty_endpoint_witness :
    (monitor_subjob ("j1") [("no markers here")]).1.ip = ⟨[]⟩ ∧
      countStep (monitor_subjob ("j1") [("no markers here")]).1 5 = 5 := by
  obtain ⟨h1, h2⟩ :=
    no_connect_empty_endpoint ("j1") [("no markers here")] (by decide)
  exact ⟨h1, h2 5⟩

/- ## C2: the threshold-reached cancellation sweep -/

/-- Counterexample to C2 as stated. Three jobs, threshold two: job `A`
completes successfully (non-empty endpoint), then job `B` completes
successfully and triggers the threshold. The sweep sets the cancellation
token of every job other than `B` whose token is unset — which includes
`A`, a job that had already completed successfully. So the claim that
cancellation is issued to no job that had already completed successfully
(including successful jobs other than the one that just completed) fails. -/
theorem mass_cancel_counterexample :
    monitorLoop 2 [("A"), ("B"), ("C")] (fun _ => false)
        [⟨("10.0.0.1"), ("A"), ("")⟩, ⟨("10.0.0.2"), ("B"), ("")⟩] 0 =
      (2, some (("B"), [("A"), ("C")])) ∧
      (⟨("10.0.0.1"), ("A"), ("")⟩ : RetVal).ip ≠ ⟨[]⟩ := by
  decide

/-- C2 (amended). When the success tally reaches the completion threshold
strictly before all monitors finish, the sweep at the triggering completion
sets the cancellation token of every monitored job other than the one that
just completed (all tokens are still unset at that point) — in particular
every job still non-terminal at that moment, but also every job that had
already completed successfully earlier. -/
theorem mass_cancel_amended (threshold : Nat) (subjobs : List String)
    (records : List RetVal) (count c : Nat) (trig : String) (sig : List String)
    (h : monitorLoop threshold subjobs (fun _ => false) records count =
      (c, some (trig, sig))) :
    sig = subjobs.filter (fun j => !(j = trig : Bool)) ∧
      ∀ j ∈ subjobs, j ≠ trig → j ∈ sig := by
  induction records generalizing count with
  | nil => rw [monitorLoop] at h; simp at h
  | cons r rest ih =>
    rw [monitorLoop] at h
    by_cases hth : threshold ≤ countStep r count
    · rw [if_pos hth] at h
      injection h with h1 h2
      injection h2 with h3
      injection h3 with htr hsig
      subst htr
      constructor
      · rw [← hsig, massCancelTargets]
        apply List.filter_congr
        intro j _
        simp
      · intro j hj hne
        rw [← hsig, massCancelTargets, List.mem_filter]
        refine ⟨hj, ?_⟩
        simp [hne]
    · rw [if_neg hth] at h
      exact ih _ h

/-- Witness for the amended C2 at a concrete input: one job triggers the
threshold instantly and the sweep signals exactly the other job. -/
theorem mass_cancel_amended_witness :
    ([("B")] : List String) =
        [("A"), ("B")].filter (fun j => !(j = ("A") : Bool)) ∧
      ("B") ∈ ([("B")] : List String) := by
  have h := mass_cancel_amended 1 [("A"), ("B")] [⟨("ip1"), ("A"), ("n")⟩] 0 1
    ("A") [("B")] (by decide)
  exact ⟨h.1, h.2 ("B") (by decide) (by decide)⟩

/- ## C5: which records the verification pass checks -/

/-- Counterexample to C5 as stated. A Result Record with an empty endpoint
(`ip = ""`) but a non-empty job identifier is status-queried by
`verify_results`, so the set of checked records is not exactly the
successful ones. -/
theorem verify_checks_failed_records :
    (verify_results (fun _ => CmdResult.ok ("job reserved"))
        (fun _ => ⟨CmdResult.ok ("x"), CmdResult.ok ("y")⟩)
        [⟨(""), ("j1"), ("")⟩] ∅).queried = [("j1")] ∧
      (⟨(""), ("j1"), ("")⟩ : RetVal).ip = ⟨[]⟩ := by
  decide

/-- C5 (amended). The verification pass status-queries exactly the records
with a non-empty job identifier — successful or not; every checked record
whose status query succeeds with output lacking the reserve marker is handed
to `safe_cancel_job` and dropped from the final result set, and every
checked record whose status output contains the marker is retained. -/
theorem verify_results_characterization (stE : String → CmdResult)
    (cE : String → CancelEnv) (results : List RetVal) :
    ∀ s : Finset String,
      (verify_results stE cE results s).queried =
          (results.filter (fun r => !(r.job_id = ⟨[]⟩ : Bool))).map
            (fun r => r.job_id) ∧
        (verify_results stE cE results s).valid =
            results.filter
              (fun r => !(r.job_id = ⟨[]⟩ : Bool) && okReserve stE r) ∧
          (verify_results stE cE results s).cancelAttempts =
              (results.filter
                (fun r => !(r.job_id = ⟨[]⟩ : Bool) && okNotReserve stE r)).map
                (fun r => r.job_id) := by
  induction results with
  | nil => intro s; exact ⟨rfl, rfl, rfl⟩
  | cons r rest ih =>
    intro s
    by_cases h0 : r.job_id = ⟨[]⟩
    · obtain ⟨q, v, ca⟩ := ih s
      rw [verify_results, if_pos h0]
      refine ⟨?_, ?_, ?_⟩ <;> simp [List.filter_cons, h0, q, v, ca]
    · rcases hst : stE r.job_id with o | o | _
      · cases hres : containsSub o reserveMarker
        · obtain ⟨q, v, ca⟩ :=
            ih (safe_cancel_job s r.job_id (cE r.job_id)).set
          rw [verify_results, if_neg h0]
          refine ⟨?_, ?_, ?_⟩ <;>
            simp [hst, hres, List.filter_cons, h0, okReserve, okNotReserve,
              q, v, ca]
        · obtain ⟨q, v, ca⟩ := ih s
          rw [verify_results, if_neg h0]
          refine ⟨?_, ?_, ?_⟩ <;>
            simp [hst, hres, List.filter_cons, h0, okReserve, okNotReserve,
              q, v, ca]
      · obtain ⟨q, v, ca⟩ := ih s
        rw [verify_results, if_neg h0]
        refine ⟨?_, ?_, ?_⟩ <;>
          simp [hst, List.filter_cons, h0, okReserve, okNotReserve, q, v, ca]
      · obtain ⟨q, v, ca⟩ := ih s
        rw [verify_results, if_neg h0]
        refine ⟨?_, ?_, ?_⟩ <;>
          simp [hst, List.filter_cons, h0, okReserve, okNotReserve, q, v, ca]

/- ## C10: a failing status query during verification -/

/-- C10. When the fresh status query of the verification pass itself fails
(non-zero exit or timeout), the record is excluded from the valid result
set, no cancel is attempted for it, the cancelled-jobs set is left unchanged
by that iteration, and verification continues with the remaining records
exactly as it would have without this one. -/
theorem verify_failed_query_skips (stE : String → CmdResult)
    (cE : String → CancelEnv) (r : RetVal) (rest : List RetVal)
    (s : Finset String) (h1 : ¬(r.job_id = ⟨[]⟩))
    (h2 : (stE r.job_id).isOk = false) :
    verify_results stE cE (r :: rest) s =
      { verify_results stE cE rest s with
          queried := r.job_id :: (verify_results stE cE rest s).queried } := by
  rw [verify_results, if_neg h1]
  rcases hst : stE r.job_id with o | o | _
  · rw [hst] at h2; simp [CmdResult.isOk] at h2
  · rfl
  · rfl

/-- Witness for C10 at a concrete input: a record whose status query fails is
only logged as queried; nothing else changes. -/
theorem verify_failed_query_skips_witness :
    verify_results (fun _ => CmdResult.timeout)
        (fun _ => ⟨CmdResult.ok ("x"), CmdResult.ok ("y")⟩)
        [⟨("10.0.0.9"), ("j9"), ("n9")⟩] ∅ =
      { verify_results (fun _ => CmdResult.timeout)
          (fun _ => ⟨CmdResult.ok ("x"), CmdResult.ok ("y")⟩) [] ∅ with
          queried := [("j9")] } := by
  exact verify_failed_query_skips (fun _ => CmdResult.timeout)
    (fun _ => ⟨CmdResult.ok ("x"), CmdResult.ok ("y")⟩)
    ⟨("10.0.0.9"), ("j9"), ("n9")⟩ [] ∅ (by decide) (by decide)

/- ## C6: the agent ranking -/

/-- C6. The ranked output of agent selection is a permutation of the
filtered agent list, splits as a positive-streak block followed by a
non-positive-streak block, and the non-positive block is in descending
streak order. The shuffle applied to the positive block is any
permutation-preserving function (`random.shuffle`). -/
theorem rank_preserves_and_orders (shuffle : List Agent → List Agent)
    (agents : List Agent) (hsh : ∀ l, List.Perm (shuffle l) l) :
    List.Perm (rankAgents shuffle agents) agents ∧
      ∃ l1 l2, rankAgents shuffle agents = l1 ++ l2 ∧
        (∀ a ∈ l1, 0 < a.streak) ∧ (∀ a ∈ l2, a.streak ≤ 0) ∧
          List.Sorted streakGE l2 := by
  have hperm0 : List.Perm (List.insertionSort streakGE agents) agents :=
    List.perm_insertionSort _ _
  have hsorted : List.Sorted streakGE (List.insertionSort streakGE agents) :=
    List.sorted_insertionSort _ _
  have hfil : (List.insertionSort streakGE agents).filter
        (fun a => decide (a.streak ≤ 0)) =
      (List.insertionSort streakGE agents).filter
        (fun a => !(decide (0 < a.streak))) := by
    apply List.filter_congr
    intro a _
    rw [← decide_not]
    exact decide_eq_decide.mpr not_lt.symm
  have hunf : rankAgents shuffle agents =
      shuffle ((List.insertionSort streakGE agents).filter
          (fun a => decide (0 < a.streak))) ++
        (List.insertionSort streakGE agents).filter
          (fun a => decide (a.streak ≤ 0)) := rfl
  constructor
  · rw [hunf]
    refine List.Perm.trans ?_ hperm0
    refine List.Perm.trans
      ((hsh ((List.insertionSort streakGE agents).filter
        (fun a => decide (0 < a.streak)))).append_right
          ((List.insertionSort streakGE agents).filter
            (fun a => decide (a.streak ≤ 0)))) ?_
    rw [hfil]
    exact List.filter_append_perm _ _
  · refine ⟨_, _, hunf, ?_, ?_, ?_⟩
    · intro a ha
      have hmem : a ∈ (List.insertionSort streakGE agents).filter
          (fun x => decide (0 < x.streak)) := (hsh _).mem_iff.mp ha
      have hp := List.of_mem_filter hmem
      simpa using hp
    · intro a ha
      have hp := List.of_mem_filter ha
      simpa using hp
    · exact hsorted.filter _

/-- Witness for C6 with the identity shuffle on a concrete agent list. -/
theorem rank_preserves_and_orders_witness :
    List.Perm (rankAgents id [⟨("a"), 2⟩, ⟨("b"), -1⟩])
        [⟨("a"), 2⟩, ⟨("b"), -1⟩] ∧
      rankAgents id [⟨("a"), 2⟩, ⟨("b"), -1⟩] = [⟨("a"), 2⟩, ⟨("b"), -1⟩] := by
  refine ⟨(rank_preserves_and_orders id [⟨("a"), 2⟩, ⟨("b"), -1⟩]
    (fun l => List.Perm.refl l)).1, by decide⟩

/- ## C9: not enough agents aborts before any filesystem action -/

/-- C9. When the ranked list of available agents is strictly shorter than
the configured agent limit — even when it is nonzero — `run` returns the
failure code 1 without deleting or generating any job-description file and
without submitting any job. -/
theorem insufficient_agents_early_failure (env : RunEnv)
    (servers : List String) (h1 : env.serversRead = some servers)
    (h2 : (get_available_agents env.shuffle env.agentData servers).length <
      env.agentLimit) :
    run env = ⟨1, [], []⟩ := by
  have hlen : ((get_available_agents env.shuffle env.agentData
      servers).take env.agentLimit).length < env.agentLimit := by
    rw [List.length_take]
    exact lt_of_le_of_lt (min_le_right _ _) h2
  rw [run, h1]
  simp only [hlen, if_true]

/-- Witness for C9: one ranked agent (nonzero) against an agent limit of
two makes `run` fail with code 1 and no filesystem events. -/
theorem insufficient_agents_early_failure_witness :
    run c9Env = ⟨1, [], []⟩ ∧
      (get_available_agents c9Env.shuffle c9Env.agentData [("s1")]).length = 1 := by
  refine ⟨insufficient_agents_early_failure c9Env [("s1")] rfl (by decide), ?_⟩
  decide
